import Mathlib

/-
Shallow embedding of the telemetry multiplexer of plentymarkets/mc-telemetry
(package `telemetry`): the driver registry, the transaction container
(`Start`, `StartTracing`, the broadcast operations, `Done`), and the
`ErrorWrapper` accumulator.  Go's mutable interface values are modelled by
explicit state passing: a backend transaction is a value of a state type τ,
and the method set of the `Transaction` interface is a record of functions
on τ.  A Go call `t.M(args)` returning `(res, err)` becomes a Lean function
`τ → τ × res × Option GoErr`; the map `transactions map[string]Transaction`
becomes an association list with Go-map insert/lookup semantics.
-/

namespace Telemetry

/-- Error values produced by the telemetry package, as a syntax tree:
`base` is an error of an external collaborator, `driverInit` is the
`fmt.Errorf("%s%s - %w", TelemetryDriverError, driverName, err)` wrapper of
`Start`, `traceDriverNotRegistered` is the
"provided telemetry trace driver is not registered" error,
`driverOp` is the `fmt.Errorf("%s%s Function: %s | Error: %w", ...)` wrapper,
`processID` is the `ErrorProcessID` struct, and `joined` is `errors.Join`
of a non-empty error list. -/
inductive GoErr where
  | base (msg : String)
  | driverInit (driverName : String) (e : GoErr)
  | traceDriverNotRegistered (traceDriver : String)
  | driverOp (driverName : String) (fn : String) (e : GoErr)
  | processID (e : GoErr)
  | joined (es : List GoErr)

/-- ErrorWrapper wraps up multiple driver errors (field `errors []error`). -/
structure ErrorWrapper where
  errors : List GoErr

/-- Add appends an error to the wrapper (`ew.errors = append(ew.errors, err)`). -/
def ErrorWrapper.Add (ew : ErrorWrapper) (err : GoErr) : ErrorWrapper :=
  { errors := ew.errors ++ [err] }

/-- Error returns `nil` when no error was accumulated and otherwise
`errors.Join(ew.errors...)`, modelled as `GoErr.joined`. -/
def ErrorWrapper.Error (ew : ErrorWrapper) : Option GoErr :=
  match ew.errors with
  | [] => none
  | es => some (.joined es)

/-- Lookup in a Go map modelled as an association list (keys are unique,
    so the first binding is the binding). -/
def mapLookup {β : Type} : List (String × β) → String → Option β
  | [], _ => none
  | p :: rest, k => if p.1 = k then some p.2 else mapLookup rest k

/-- Insert into a Go map modelled as an association list: overwrite the
    existing binding in place, or append a new one. -/
def mapInsert {β : Type} : List (String × β) → String → β → List (String × β)
  | [], k, v => [(k, v)]
  | p :: rest, k, v => if p.1 = k then (k, v) :: rest else p :: mapInsert rest k v

/-- Key set (as a list, in binding order) of a modelled Go map. -/
def mapKeys {β : Type} (m : List (String × β)) : List String :=
  m.map Prod.fst

/-- Method set of the Go `Transaction` interface (`Logger`, `Tracer`,
`Allocator`, `Processor` plus the lifecycle methods), over a backend state
type τ; `A` is the type of `any` attribute values.  A Go result pair
`(string, error)` becomes `String × Option GoErr`; `Info`/`Error` receive
the message body that the container wraps into an `io.ReadCloser`. -/
structure TransactionImpl (A : Type) (τ : Type) where
  start : τ → String → τ
  addTransactionAttribute : τ → String → A → τ × Option GoErr
  segmentStart : τ → String → String → τ × Option GoErr
  addSegmentAttribute : τ → String → String → A → τ × Option GoErr
  segmentEnd : τ → String → τ × Option GoErr
  done : τ → τ × Option GoErr
  erase : τ → τ
  info : τ → String → String → τ × Option GoErr
  error : τ → String → String → τ × Option GoErr
  createProcessID : τ → τ × String × Option GoErr
  setProcessID : τ → String → τ × Option GoErr
  getProcessID : τ → τ × String × Option GoErr
  createTrace : τ → τ × String × Option GoErr
  setTrace : τ → String → τ × Option GoErr
  getTrace : τ → τ × String × Option GoErr

/-- Go `Driver` interface: `InitializeTransaction(string) (Transaction, error)`. -/
structure Driver (τ : Type) where
  initializeTransaction : String → Except GoErr τ

/-- Process-wide mutable state of the package: `registeredDriver`,
`loadedDriver` and `traceDriver`, made explicit. -/
structure TelemetryEnv (τ : Type) where
  registeredDriver : List (String × Driver τ)
  loadedDriver : List String
  traceDriver : String

/-- RegisterDriver adds a driver to the driver map (last write wins). -/
def RegisterDriver {τ : Type} (env : TelemetryEnv τ) (name : String)
    (driver : Driver τ) : TelemetryEnv τ :=
  { env with registeredDriver := mapInsert env.registeredDriver name driver }

/-- SetDriver sets the list of drivers to use for the application. -/
def SetDriver {τ : Type} (env : TelemetryEnv τ) (name : List String) :
    TelemetryEnv τ :=
  { env with loadedDriver := name }

/-- SetTraceDriver sets the driver used for the trace. -/
def SetTraceDriver {τ : Type} (env : TelemetryEnv τ) (name : String) :
    TelemetryEnv τ :=
  { env with traceDriver := name }

/-- TransactionContainer holds one started backend transaction per driver
name (`transactions map[string]Transaction`). -/
structure TransactionContainer (τ : Type) where
  transactions : List (String × τ)

/-- Outcome of `Start`: Go's `getDriver` calls `log.Fatalf` when a loaded
driver is not registered, which aborts the process (`fatal`); otherwise
`Start` returns the pair `(TransactionContainer, error)` (`ok`). -/
inductive StartResult (τ : Type) where
  | fatal (driverName : String)
  | ok (tc : TransactionContainer τ) (err : Option GoErr)

/-- Initialization loop of `Start`: for each loaded driver name, look the
driver up (`getDriver`, fatal on a miss), call `InitializeTransaction`, and
on failure return the partially filled container together with the error
`TelemetryDriverError + driverName + " - " + err`. -/
def initTransactions {τ : Type} (env : TelemetryEnv τ) (name : String) :
    List String → List (String × τ) → StartResult τ
  | [], acc => .ok ⟨acc⟩ none
  | driverName :: rest, acc =>
    match mapLookup env.registeredDriver driverName with
    | none => .fatal driverName
    | some driver =>
      match driver.initializeTransaction name with
      | .error e => .ok ⟨acc⟩ (some (.driverInit driverName e))
      | .ok t => initTransactions env name rest (mapInsert acc driverName t)

/-- CreateProcessID creates the process id for all drivers depending on the
trace driver: look up the trace driver's transaction (error
`traceDriverNotRegistered` on a miss), call its `CreateProcessID`, and wrap
a failure as `driverOp traceDriver "CreateProcessID"`. -/
def TransactionContainer.CreateProcessID {A τ : Type} (impl : TransactionImpl A τ)
    (env : TelemetryEnv τ) (tc : TransactionContainer τ) :
    TransactionContainer τ × String × Option GoErr :=
  match mapLookup tc.transactions env.traceDriver with
  | none => (tc, "", some (.traceDriverNotRegistered env.traceDriver))
  | some val =>
    let r := impl.createProcessID val
    let tc' : TransactionContainer τ :=
      ⟨mapInsert tc.transactions env.traceDriver r.1⟩
    match r.2.2 with
    | some e => (tc', r.2.1, some (.driverOp env.traceDriver "CreateProcessID" e))
    | none => (tc', r.2.1, none)

/-- Broadcast loop of `SetProcessID`: call `SetProcessID` on every
transaction, collecting `driverOp driverName "SetProcessID"` wrappers of the
failures in iteration order. -/
def setProcessIDLoop {A τ : Type} (impl : TransactionImpl A τ) (processID : String) :
    List (String × τ) → List (String × τ) × List GoErr
  | [] => ([], [])
  | p :: rest =>
    let r := impl.setProcessID p.2 processID
    let tail := setProcessIDLoop impl processID rest
    match r.2 with
    | some err => ((p.1, r.1) :: tail.1, .driverOp p.1 "SetProcessID" err :: tail.2)
    | none => ((p.1, r.1) :: tail.1, tail.2)

/-- SetProcessID sets the process id for all transactions, returning
`ErrorWrapper.Error` of the accumulated per-driver failures. -/
def TransactionContainer.SetProcessID {A τ : Type} (impl : TransactionImpl A τ)
    (tc : TransactionContainer τ) (processID : String) :
    TransactionContainer τ × Option GoErr :=
  let r := setProcessIDLoop impl processID tc.transactions
  (⟨r.1⟩, ErrorWrapper.Error ⟨r.2⟩)

/-- Broadcast loop of `SetTrace`: call `SetTrace` on every transaction,
collecting `driverOp driverName "SetTrace"` wrappers of the failures. -/
def setTraceLoop {A τ : Type} (impl : TransactionImpl A τ) (trace : String) :
    List (String × τ) → List (String × τ) × List GoErr
  | [] => ([], [])
  | p :: rest =>
    let r := impl.setTrace p.2 trace
    let tail := setTraceLoop impl trace rest
    match r.2 with
    | some err => ((p.1, r.1) :: tail.1, .driverOp p.1 "SetTrace" err :: tail.2)
    | none => ((p.1, r.1) :: tail.1, tail.2)

/-- SetTrace sets the trace for all transactions, returning
`ErrorWrapper.Error` of the accumulated per-driver failures. -/
def TransactionContainer.SetTrace {A τ : Type} (impl : TransactionImpl A τ)
    (tc : TransactionContainer τ) (trace : String) :
    TransactionContainer τ × Option GoErr :=
  let r := setTraceLoop impl trace tc.transactions
  (⟨r.1⟩, ErrorWrapper.Error ⟨r.2⟩)

/-- Start returns a transaction container with started transactions of all
activated drivers: initialize one transaction per loaded driver (abort on
failure), mint a ProcessID via the trace driver and broadcast it
(`ErrorProcessID`-wrapped errors), then broadcast the lifecycle `Start`. -/
def Start {A τ : Type} (impl : TransactionImpl A τ) (env : TelemetryEnv τ)
    (name : String) : StartResult τ :=
  match initTransactions env name env.loadedDriver [] with
  | .fatal d => .fatal d
  | .ok tc (some e) => .ok tc (some e)
  | .ok tc none =>
    let r1 := tc.CreateProcessID impl env
    match r1.2.2 with
    | some e => .ok r1.1 (some (.processID e))
    | none =>
      let r2 := r1.1.SetProcessID impl r1.2.1
      match r2.2 with
      | some e => .ok r2.1 (some (.processID e))
      | none =>
        .ok ⟨r2.1.transactions.map (fun p => (p.1, impl.start p.2 name))⟩ none

/-- StartTracing creates and sets the trace for all drivers depending on
the trace driver: look the trace driver's transaction up (error on a miss),
call its `CreateTrace` (wrapped as `driverOp traceDriver "CreateTrace"` on
failure), then broadcast the trace via `SetTrace`. -/
def TransactionContainer.StartTracing {A τ : Type} (impl : TransactionImpl A τ)
    (env : TelemetryEnv τ) (tc : TransactionContainer τ) :
    TransactionContainer τ × String × Option GoErr :=
  match mapLookup tc.transactions env.traceDriver with
  | none => (tc, "", some (.traceDriverNotRegistered env.traceDriver))
  | some val =>
    let r := impl.createTrace val
    let tc' : TransactionContainer τ :=
      ⟨mapInsert tc.transactions env.traceDriver r.1⟩
    match r.2.2 with
    | some e => (tc', r.2.1, some (.driverOp env.traceDriver "CreateTrace" e))
    | none =>
      let r2 := tc'.SetTrace impl r.2.1
      match r2.2 with
      | some e => (r2.1, r.2.1, some e)
      | none => (r2.1, r.2.1, none)

/-- AddTransactionAttribute adds an attribute on every transaction;
per-backend failures only go to the log. -/
def TransactionContainer.AddTransactionAttribute {A τ : Type}
    (impl : TransactionImpl A τ) (tc : TransactionContainer τ)
    (name : String) (attr : A) : TransactionContainer τ :=
  ⟨tc.transactions.map (fun p => (p.1, (impl.addTransactionAttribute p.2 name attr).1))⟩

/-- Model of `uuid.NewString` of github.com/google/uuid: an injective
rendering of a fresh-counter state.  The real generator draws a random v4
UUID; what the container relies on is only that distinct calls yield
distinct strings, which the model makes exact. -/
def uuidString (n : Nat) : String :=
  String.mk (List.replicate n 'u')

/-- SegmentStart generates one fresh SegmentID (`uuid.NewString`, modelled
by `uuidString` of the threaded counter) and broadcasts
`SegmentStart(segmentID, name)` to every transaction; per-backend failures
only go to the log, and the segmentID is returned unconditionally. -/
def TransactionContainer.SegmentStart {A τ : Type} (impl : TransactionImpl A τ)
    (tc : TransactionContainer τ) (gen : Nat) (name : String) :
    String × TransactionContainer τ × Nat :=
  let segmentID := uuidString gen
  (segmentID,
   ⟨tc.transactions.map (fun p => (p.1, (impl.segmentStart p.2 segmentID name).1))⟩,
   gen + 1)

/-- AddSegmentAttribute adds an attribute to a segment on every
transaction; per-backend failures only go to the log. -/
def TransactionContainer.AddSegmentAttribute {A τ : Type}
    (impl : TransactionImpl A τ) (tc : TransactionContainer τ)
    (segmentID : String) (name : String) (attr : A) : TransactionContainer τ :=
  ⟨tc.transactions.map (fun p => (p.1, (impl.addSegmentAttribute p.2 segmentID name attr).1))⟩

/-- SegmentEnd ends a segment on every transaction; per-backend failures
only go to the log. -/
def TransactionContainer.SegmentEnd {A τ : Type} (impl : TransactionImpl A τ)
    (tc : TransactionContainer τ) (segmentID : String) : TransactionContainer τ :=
  ⟨tc.transactions.map (fun p => (p.1, (impl.segmentEnd p.2 segmentID).1))⟩

/-- Done calls `Done` on every transaction (failures only go to the log)
and then, unconditionally, that transaction's `Erase`. -/
def TransactionContainer.Done {A τ : Type} (impl : TransactionImpl A τ)
    (tc : TransactionContainer τ) : TransactionContainer τ :=
  ⟨tc.transactions.map (fun p => (p.1, impl.erase (impl.done p.2).1))⟩

/-- Info broadcasts a message (wrapped by the container into an
`io.ReadCloser`, modelled as the message body) to every transaction;
per-backend failures only go to the log. -/
def TransactionContainer.Info {A τ : Type} (impl : TransactionImpl A τ)
    (tc : TransactionContainer τ) (segmentID : String) (msg : String) :
    TransactionContainer τ :=
  ⟨tc.transactions.map (fun p => (p.1, (impl.info p.2 segmentID msg).1))⟩

/-- Error broadcasts the stringified error to every transaction;
per-backend failures only go to the log. -/
def TransactionContainer.Error {A τ : Type} (impl : TransactionImpl A τ)
    (tc : TransactionContainer τ) (segmentID : String) (errMsg : String) :
    TransactionContainer τ :=
  ⟨tc.transactions.map (fun p => (p.1, (impl.error p.2 segmentID errMsg).1))⟩

/-- Trace gets the trace of the transaction used for trace. -/
def TransactionContainer.Trace {A τ : Type} (impl : TransactionImpl A τ)
    (env : TelemetryEnv τ) (tc : TransactionContainer τ) :
    TransactionContainer τ × String × Option GoErr :=
  match mapLookup tc.transactions env.traceDriver with
  | none => (tc, "", some (.traceDriverNotRegistered env.traceDriver))
  | some val =>
    let r := impl.getTrace val
    let tc' : TransactionContainer τ :=
      ⟨mapInsert tc.transactions env.traceDriver r.1⟩
    match r.2.2 with
    | some e => (tc', "", some (.driverOp env.traceDriver "Trace" e))
    | none => (tc', r.2.1, none)

/-- State of an instrumented fake backend transaction, in the spirit of the
fakes the specification proposes for verification: it records the last
values every method received and counts `Done`/`Erase` calls, and its
`fail*` flags script which methods report an error (without changing the
recorded state, as a failing backend call delivers nothing). -/
structure FakeTx where
  startedName : Option String := none
  heldProcessID : Option String := none
  heldTrace : Option String := none
  segments : List (String × String) := []
  endedSegments : List String := []
  txAttrs : List (String × String) := []
  segAttrs : List (String × String × String) := []
  infoLog : List (String × String) := []
  errorLog : List (String × String) := []
  doneCount : Nat := 0
  eraseCount : Nat := 0
  failSetProcessID : Bool := false
  failSetTrace : Bool := false
  failDone : Bool := false
  failSegmentStart : Bool := false
deriving DecidableEq

/-- Fake implementation of the `Transaction` interface over `FakeTx`: the
trace authority mints ProcessID "p-1" and TraceID "t-1"; the `fail*` flags
script per-method failures; every successful call records its arguments. -/
def fakeImpl : TransactionImpl String FakeTx where
  start t n := { t with startedName := some n }
  addTransactionAttribute t k v := ({ t with txAttrs := t.txAttrs ++ [(k, v)] }, none)
  segmentStart t sid n :=
    if t.failSegmentStart then (t, some (.base "segment start failed"))
    else ({ t with segments := t.segments ++ [(sid, n)] }, none)
  addSegmentAttribute t sid k v := ({ t with segAttrs := t.segAttrs ++ [(sid, k, v)] }, none)
  segmentEnd t sid := ({ t with endedSegments := t.endedSegments ++ [sid] }, none)
  done t := ({ t with doneCount := t.doneCount + 1 },
    if t.failDone then some (.base "done failed") else none)
  erase t := { t with eraseCount := t.eraseCount + 1 }
  info t sid msg := ({ t with infoLog := t.infoLog ++ [(sid, msg)] }, none)
  error t sid msg := ({ t with errorLog := t.errorLog ++ [(sid, msg)] }, none)
  createProcessID t := (t, "p-1", none)
  setProcessID t pid :=
    if t.failSetProcessID then (t, some (.base "set process id failed"))
    else ({ t with heldProcessID := some pid }, none)
  getProcessID t := (t, t.heldProcessID.getD "", none)
  createTrace t := (t, "t-1", none)
  setTrace t tr :=
    if t.failSetTrace then (t, some (.base "set trace failed"))
    else ({ t with heldTrace := some tr }, none)
  getTrace t := (t, t.heldTrace.getD "", none)

/-- Fake driver whose `InitializeTransaction` always succeeds and hands out
the given initial backend state. -/
def fakeDriver (t : FakeTx) : Driver FakeTx :=
  ⟨fun _ => .ok t⟩

/-- Fake driver whose `InitializeTransaction` always fails with the given
error. -/
def failingDriver (e : GoErr) : Driver FakeTx :=
  ⟨fun _ => .error e⟩

/-- Environment in which each entry of `specs` is a registered fake driver
handing out the entry's initial state, the active driver list is the list
of entry names, and `td` is the trace driver. -/
def envOf (specs : List (String × FakeTx)) (td : String) : TelemetryEnv FakeTx :=
  { registeredDriver := specs.map (fun p => (p.1, fakeDriver p.2))
  , loadedDriver := specs.map Prod.fst
  , traceDriver := td }

/-- Running a sequence of `SegmentStart` calls on one container, threading
the container state and the uuid counter, and collecting the returned
SegmentIDs in call order. -/
def runSegmentStarts {A τ : Type} (impl : TransactionImpl A τ) :
    TransactionContainer τ → Nat → List String → List String × TransactionContainer τ × Nat
  | tc, gen, [] => ([], tc, gen)
  | tc, gen, n :: rest =>
    let r := tc.SegmentStart impl gen n
    let t := runSegmentStarts impl r.2.1 r.2.2 rest
    (r.1 :: t.1, t.2)

/-- Accumulating a list of errors into a fresh `ErrorWrapper` by repeated
`Add` calls, in list order. -/
def addAll (es : List GoErr) : ErrorWrapper :=
  es.foldl ErrorWrapper.Add ⟨[]⟩

theorem mapLookup_map_snd {β γ : Type} (g : β → γ) (m : List (String × β)) (k : String) :
    mapLookup (m.map (fun p => (p.1, g p.2))) k = (mapLookup m k).map g := by
  induction m with
  | nil => rfl
  | cons p rest ih =>
    simp only [List.map_cons, mapLookup]
    split <;> simp [ih]

theorem mapLookup_eq_some_mem {β : Type} {m : List (String × β)} {k : String} {v : β}
    (h : mapLookup m k = some v) : (k, v) ∈ m := by
  induction m with
  | nil => simp [mapLookup] at h
  | cons p rest ih =>
    obtain ⟨a, b⟩ := p
    simp only [mapLookup] at h
    split at h
    · next heq =>
      simp only [Option.some.injEq] at h
      subst h
      subst heq
      exact List.mem_cons_self _ _
    · exact List.mem_cons_of_mem _ (ih h)

theorem mapLookup_eq_none_iff {β : Type} (m : List (String × β)) (k : String) :
    mapLookup m k = none ↔ k ∉ mapKeys m := by
  induction m with
  | nil => simp [mapLookup, mapKeys]
  | cons p rest ih =>
    simp only [mapLookup, mapKeys, List.map_cons, List.mem_cons]
    split
    · next heq => simp [heq]
    · next hne =>
      rw [ih]
      simp only [mapKeys]
      constructor
      · intro h hc
        rcases hc with hc | hc
        · exact hne hc.symm
        · exact h hc
      · intro h hc
        exact h (Or.inr hc)

theorem mem_mapKeys_lookup {β : Type} {m : List (String × β)} {k : String}
    (h : k ∈ mapKeys m) : ∃ v, mapLookup m k = some v := by
  cases hl : mapLookup m k with
  | none => exact absurd h ((mapLookup_eq_none_iff m k).mp hl)
  | some v => exact ⟨v, rfl⟩

theorem mapLookup_of_mem_nodup {β : Type} {m : List (String × β)} {p : String × β}
    (hnd : (mapKeys m).Nodup) (h : p ∈ m) : mapLookup m p.1 = some p.2 := by
  induction m with
  | nil => simp at h
  | cons q rest ih =>
    simp only [mapKeys, List.map_cons, List.nodup_cons] at hnd
    rcases List.mem_cons.mp h with h | h
    · subst h
      simp [mapLookup]
    · have hne : q.1 ≠ p.1 := by
        intro hc
        exact hnd.1 (hc ▸ List.mem_map_of_mem Prod.fst h)
      simp only [mapLookup, if_neg hne]
      exact ih hnd.2 h

theorem mapInsert_self {β : Type} {m : List (String × β)} {k : String} {v : β}
    (h : mapLookup m k = some v) : mapInsert m k v = m := by
  induction m with
  | nil => simp [mapLookup] at h
  | cons p rest ih =>
    simp only [mapLookup] at h
    simp only [mapInsert]
    split
    · next heq =>
      rw [if_pos heq] at h
      simp only [Option.some.injEq] at h
      rw [← heq, ← h]
    · next hne =>
      rw [if_neg hne] at h
      rw [ih h]

theorem mapInsert_not_mem {β : Type} {m : List (String × β)} {k : String} (v : β)
    (h : k ∉ mapKeys m) : mapInsert m k v = m ++ [(k, v)] := by
  induction m with
  | nil => rfl
  | cons p rest ih =>
    simp only [mapKeys, List.map_cons, List.mem_cons] at h
    push_neg at h
    simp only [mapInsert, if_neg (Ne.symm h.1)]
    rw [ih (by simpa [mapKeys] using h.2)]
    simp

theorem mem_mapKeys_mapInsert {β : Type} (m : List (String × β)) (k : String) (v : β)
    (x : String) : x ∈ mapKeys (mapInsert m k v) ↔ x ∈ mapKeys m ∨ x = k := by
  induction m with
  | nil => simp [mapInsert, mapKeys]
  | cons p rest ih =>
    simp only [mapInsert]
    split
    · next heq =>
      simp only [mapKeys, List.map_cons, List.mem_cons]
      constructor
      · rintro (h | h)
        · exact Or.inr h
        · exact Or.inl (Or.inr h)
      · rintro ((h | h) | h)
        · exact Or.inl (heq ▸ h)
        · exact Or.inr h
        · exact Or.inl h
    · next hne =>
      simp only [mapKeys, List.map_cons, List.mem_cons] at *
      rw [ih]
      tauto

theorem nodup_mapKeys_mapInsert {β : Type} (m : List (String × β)) (k : String) (v : β)
    (h : (mapKeys m).Nodup) : (mapKeys (mapInsert m k v)).Nodup := by
  induction m with
  | nil => simp [mapInsert, mapKeys]
  | cons p rest ih =>
    simp only [mapKeys, List.map_cons, List.nodup_cons] at h
    simp only [mapInsert]
    split
    · next heq =>
      simp only [mapKeys, List.map_cons, List.nodup_cons]
      exact ⟨heq ▸ h.1, h.2⟩
    · next hne =>
      simp only [mapKeys, List.map_cons, List.nodup_cons]
      refine ⟨?_, ih h.2⟩
      intro hc
      rcases (mem_mapKeys_mapInsert rest k v p.1).mp hc with hc | hc
      · exact h.1 hc
      · exact hne hc

theorem mem_mapInsert {β : Type} {m : List (String × β)} {k : String} {v : β}
    {p : String × β} (h : p ∈ mapInsert m k v) : p ∈ m ∨ p = (k, v) := by
  induction m with
  | nil => simpa [mapInsert] using h
  | cons q rest ih =>
    simp only [mapInsert] at h
    split at h
    · rcases List.mem_cons.mp h with h | h
      · exact Or.inr h
      · exact Or.inl (List.mem_cons_of_mem _ h)
    · rcases List.mem_cons.mp h with h | h
      · exact Or.inl (h ▸ List.mem_cons_self _ _)
      · rcases ih h with h | h
        · exact Or.inl (List.mem_cons_of_mem _ h)
        · exact Or.inr h

theorem mapKeys_mapEntries {β γ : Type} (g : String × β → γ) (m : List (String × β)) :
    mapKeys (m.map (fun p => (p.1, g p))) = mapKeys m := by
  simp [mapKeys, List.map_map]

theorem mapKeys_append {β : Type} (xs ys : List (String × β)) :
    mapKeys (xs ++ ys) = mapKeys xs ++ mapKeys ys := by
  simp [mapKeys]

theorem mapLookup_append_left {β : Type} {xs : List (String × β)} {k : String} {v : β}
    (ys : List (String × β)) (h : mapLookup xs k = some v) :
    mapLookup (xs ++ ys) k = some v := by
  induction xs with
  | nil => simp [mapLookup] at h
  | cons p rest ih =>
    simp only [mapLookup] at h ⊢
    split <;> simp_all

theorem mapLookup_append_right {β : Type} {xs : List (String × β)} {k : String}
    (ys : List (String × β)) (h : k ∉ mapKeys xs) :
    mapLookup (xs ++ ys) k = mapLookup ys k := by
  induction xs with
  | nil => rfl
  | cons p rest ih =>
    simp only [mapKeys, List.map_cons, List.mem_cons] at h
    push_neg at h
    simp only [List.cons_append, mapLookup, if_neg (Ne.symm h.1)]
    exact ih (by simpa [mapKeys] using h.2)

theorem setProcessIDLoop_eq {A τ : Type} (impl : TransactionImpl A τ) (pid : String)
    (l : List (String × τ)) :
    setProcessIDLoop impl pid l =
      (l.map (fun p => (p.1, (impl.setProcessID p.2 pid).1)),
       l.filterMap (fun p =>
         ((impl.setProcessID p.2 pid).2).map (fun e => GoErr.driverOp p.1 "SetProcessID" e))) := by
  induction l with
  | nil => rfl
  | cons p rest ih =>
    simp only [setProcessIDLoop, ih, List.map_cons, List.filterMap_cons]
    cases h : (impl.setProcessID p.2 pid).2 <;> simp [h]

theorem setTraceLoop_eq {A τ : Type} (impl : TransactionImpl A τ) (trace : String)
    (l : List (String × τ)) :
    setTraceLoop impl trace l =
      (l.map (fun p => (p.1, (impl.setTrace p.2 trace).1)),
       l.filterMap (fun p =>
         ((impl.setTrace p.2 trace).2).map (fun e => GoErr.driverOp p.1 "SetTrace" e))) := by
  induction l with
  | nil => rfl
  | cons p rest ih =>
    simp only [setTraceLoop, ih, List.map_cons, List.filterMap_cons]
    cases h : (impl.setTrace p.2 trace).2 <;> simp [h]

theorem errorWrapper_error_nil : ErrorWrapper.Error ⟨[]⟩ = none := rfl

theorem errorWrapper_error_ne_nil {es : List GoErr} (h : es ≠ []) :
    ErrorWrapper.Error ⟨es⟩ = some (.joined es) := by
  cases es with
  | nil => exact absurd rfl h
  | cons e rest => rfl

theorem foldl_add_eq (es : List GoErr) :
    ∀ acc : List GoErr, es.foldl ErrorWrapper.Add ⟨acc⟩ = ⟨acc ++ es⟩ := by
  induction es with
  | nil => intro acc; simp
  | cons e rest ih =>
    intro acc
    simp only [List.foldl_cons, ErrorWrapper.Add]
    rw [ih]
    simp

theorem uuidString_injective : Function.Injective uuidString := by
  intro m n h
  simp only [uuidString] at h
  have hdata : List.replicate m 'u' = List.replicate n 'u' := congrArg String.data h
  have := congrArg List.length hdata
  simpa using this

theorem runSegmentStarts_ids {A τ : Type} (impl : TransactionImpl A τ)
    (names : List String) : ∀ (tc : TransactionContainer τ) (gen : Nat),
    (runSegmentStarts impl tc gen names).1 =
      (List.range names.length).map (fun i => uuidString (gen + i)) := by
  induction names with
  | nil => intro tc gen; rfl
  | cons n rest ih =>
    intro tc gen
    simp only [runSegmentStarts, TransactionContainer.SegmentStart, ih,
      List.length_cons, List.range_succ_eq_map, List.map_cons, List.map_map]
    congr 1
    apply List.map_congr_left
    intro a ha
    show uuidString (gen + 1 + a) = uuidString (gen + (a + 1))
    congr 1
    omega

theorem envOf_loadedDriver (specs : List (String × FakeTx)) (td : String) :
    (envOf specs td).loadedDriver = mapKeys specs := rfl

theorem envOf_traceDriver (specs : List (String × FakeTx)) (td : String) :
    (envOf specs td).traceDriver = td := rfl

theorem fakeImpl_start (t : FakeTx) (n : String) :
    fakeImpl.start t n = { t with startedName := some n } := rfl

theorem fakeImpl_createProcessID (t : FakeTx) :
    fakeImpl.createProcessID t = (t, "p-1", none) := rfl

theorem fakeImpl_createTrace (t : FakeTx) :
    fakeImpl.createTrace t = (t, "t-1", none) := rfl

theorem fakeImpl_setProcessID (t : FakeTx) (pid : String) :
    fakeImpl.setProcessID t pid =
      if t.failSetProcessID then (t, some (.base "set process id failed"))
      else ({ t with heldProcessID := some pid }, none) := rfl

theorem fakeImpl_setTrace (t : FakeTx) (tr : String) :
    fakeImpl.setTrace t tr =
      if t.failSetTrace then (t, some (.base "set trace failed"))
      else ({ t with heldTrace := some tr }, none) := rfl

theorem initTransactions_envOf_ok (specs : List (String × FakeTx)) (td nm : String) :
    ∀ (l : List String) (acc : List (String × FakeTx)),
    (∀ n ∈ l, n ∈ mapKeys specs) →
    ∃ m, initTransactions (envOf specs td) nm l acc = .ok ⟨m⟩ none
      ∧ (∀ k, k ∈ mapKeys m ↔ k ∈ mapKeys acc ∨ k ∈ l)
      ∧ ((mapKeys acc).Nodup → (mapKeys m).Nodup)
      ∧ (∀ p ∈ m, p ∈ acc ∨ p ∈ specs) := by
  intro l
  induction l with
  | nil =>
    intro acc _
    exact ⟨acc, rfl, by simp, fun h => h, fun p hp => Or.inl hp⟩
  | cons n rest ih =>
    intro acc hmem
    obtain ⟨d, hd⟩ := mem_mapKeys_lookup (hmem n (List.mem_cons_self _ _))
    have hreg : mapLookup (envOf specs td).registeredDriver n = some (fakeDriver d) := by
      show mapLookup (specs.map (fun p => (p.1, fakeDriver p.2))) n = _
      rw [mapLookup_map_snd, hd]
      rfl
    obtain ⟨m, hm, hkeys, hnd, horig⟩ :=
      ih (mapInsert acc n d) (fun x hx => hmem x (List.mem_cons_of_mem _ hx))
    refine ⟨m, ?_, ?_, ?_, ?_⟩
    · simpa only [initTransactions, hreg, fakeDriver] using hm
    · intro k
      rw [hkeys k, mem_mapKeys_mapInsert, List.mem_cons]
      tauto
    · intro h
      exact hnd (nodup_mapKeys_mapInsert acc n d h)
    · intro p hp
      rcases horig p hp with h | h
      · rcases mem_mapInsert h with h | h
        · exact Or.inl h
        · exact Or.inr (h ▸ mapLookup_eq_some_mem hd)
      · exact Or.inr h

theorem initTransactions_exact {τ : Type} (env : TelemetryEnv τ) (nm : String) :
    ∀ (gs acc : List (String × τ)),
    (∀ p ∈ gs, ∃ d : Driver τ, mapLookup env.registeredDriver p.1 = some d ∧
        d.initializeTransaction nm = .ok p.2) →
    (mapKeys gs).Nodup →
    (∀ p ∈ gs, p.1 ∉ mapKeys acc) →
    initTransactions env nm (mapKeys gs) acc = .ok ⟨acc ++ gs⟩ none := by
  intro gs
  induction gs with
  | nil =>
    intro acc _ _ _
    simp [mapKeys, initTransactions]
  | cons p rest ih =>
    intro acc hreg hnd hdisj
    obtain ⟨d, hd, hinit⟩ := hreg p (List.mem_cons_self _ _)
    have hkc : mapKeys (p :: rest) = p.1 :: mapKeys rest := rfl
    rw [hkc]
    simp only [initTransactions, hd, hinit]
    have hins : mapInsert acc p.1 p.2 = acc ++ [p] := by
      rw [mapInsert_not_mem p.2 (hdisj p (List.mem_cons_self _ _))]
    rw [hins]
    simp only [mapKeys, List.map_cons, List.nodup_cons] at hnd
    have hdisj' : ∀ q ∈ rest, q.1 ∉ mapKeys (acc ++ [p]) := by
      intro q hq
      rw [mapKeys_append]
      intro hc
      rcases List.mem_append.mp hc with hc | hc
      · exact hdisj q (List.mem_cons_of_mem _ hq) hc
      · simp only [mapKeys, List.map_cons, List.map_nil, List.mem_singleton] at hc
        exact hnd.1 (hc ▸ List.mem_map_of_mem Prod.fst hq)
    rw [ih (acc ++ [p]) (fun q hq => hreg q (List.mem_cons_of_mem _ hq)) hnd.2 hdisj']
    simp

theorem initTransactions_append {τ : Type} (env : TelemetryEnv τ) (nm : String) :
    ∀ (l₁ l₂ : List String) (acc m : List (String × τ)),
    initTransactions env nm l₁ acc = .ok ⟨m⟩ none →
    initTransactions env nm (l₁ ++ l₂) acc = initTransactions env nm l₂ m := by
  intro l₁
  induction l₁ with
  | nil =>
    intro l₂ acc m h
    simp only [initTransactions] at h
    cases h
    rfl
  | cons n rest ih =>
    intro l₂ acc m h
    cases hl : mapLookup env.registeredDriver n with
    | none =>
      simp only [initTransactions, hl] at h
      exact StartResult.noConfusion h
    | some d =>
      cases hi : d.initializeTransaction nm with
      | error e =>
        simp only [initTransactions, hl, hi] at h
        simp at h
      | ok t =>
        simp only [List.cons_append, initTransactions, hl, hi] at h ⊢
        exact ih l₂ (mapInsert acc n t) m h

theorem startFake_ok (specs : List (String × FakeTx)) (td nm : String)
    (htd : td ∈ mapKeys specs)
    (hok : ∀ p ∈ specs, p.2.failSetProcessID = false) :
    ∃ m, Start fakeImpl (envOf specs td) nm = .ok ⟨m⟩ none
      ∧ (∀ k, k ∈ mapKeys m ↔ k ∈ mapKeys specs)
      ∧ (mapKeys m).Nodup
      ∧ (∀ p ∈ m, ∃ q ∈ specs, p.1 = q.1 ∧
          p.2 = { q.2 with heldProcessID := some "p-1", startedName := some nm }) := by
  obtain ⟨m₀, hinit, hkeys, hnd, horig⟩ :=
    initTransactions_envOf_ok specs td nm (mapKeys specs) [] (fun n hn => hn)
  have hkeys' : ∀ k, k ∈ mapKeys m₀ ↔ k ∈ mapKeys specs := by
    intro k
    rw [hkeys k]
    simp [mapKeys]
  have horig' : ∀ p ∈ m₀, p ∈ specs := by
    intro p hp
    rcases horig p hp with h | h
    · simp at h
    · exact h
  have htd0 : td ∈ mapKeys m₀ := (hkeys' td).mpr htd
  obtain ⟨t0, ht0⟩ := mem_mapKeys_lookup htd0
  have hcp : TransactionContainer.CreateProcessID fakeImpl (envOf specs td) ⟨m₀⟩ =
      (⟨m₀⟩, "p-1", none) := by
    simp only [TransactionContainer.CreateProcessID, envOf_traceDriver, ht0,
      fakeImpl_createProcessID, mapInsert_self ht0]
  have hflags : ∀ p ∈ m₀, p.2.failSetProcessID = false :=
    fun p hp => hok p (horig' p hp)
  have hsp : TransactionContainer.SetProcessID fakeImpl ⟨m₀⟩ "p-1" =
      (⟨m₀.map (fun p => (p.1, { p.2 with heldProcessID := some "p-1" }))⟩, none) := by
    have h1 : m₀.map (fun p => (p.1, (fakeImpl.setProcessID p.2 "p-1").1)) =
        m₀.map (fun p => (p.1, { p.2 with heldProcessID := some "p-1" })) :=
      List.map_congr_left (fun p hp => by
        simp only [fakeImpl_setProcessID, hflags p hp]
        simp)
    have h2 : m₀.filterMap (fun p =>
        ((fakeImpl.setProcessID p.2 "p-1").2).map
          (fun e => GoErr.driverOp p.1 "SetProcessID" e)) = [] :=
      List.filterMap_eq_nil_iff.mpr (fun p hp => by
        simp only [fakeImpl_setProcessID, hflags p hp]
        simp)
    simp only [TransactionContainer.SetProcessID, setProcessIDLoop_eq, h1, h2,
      errorWrapper_error_nil]
  refine ⟨m₀.map (fun p =>
      (p.1, { p.2 with heldProcessID := some "p-1", startedName := some nm })), ?_, ?_, ?_, ?_⟩
  · simp only [Start, envOf_loadedDriver, hinit, hcp, hsp, List.map_map]
    rfl
  · intro k
    have hk : mapKeys (m₀.map (fun p =>
        (p.1, { p.2 with heldProcessID := some "p-1", startedName := some nm }))) = mapKeys m₀ :=
      mapKeys_mapEntries
        (fun p => { p.2 with heldProcessID := some "p-1", startedName := some nm }) m₀
    rw [hk]
    exact hkeys' k
  · have hk : mapKeys (m₀.map (fun p =>
        (p.1, { p.2 with heldProcessID := some "p-1", startedName := some nm }))) = mapKeys m₀ :=
      mapKeys_mapEntries
        (fun p => { p.2 with heldProcessID := some "p-1", startedName := some nm }) m₀
    rw [hk]
    exact hnd (by simp [mapKeys])
  · intro p hp
    obtain ⟨z, hz, hzp⟩ := List.mem_map.mp hp
    exact ⟨z, horig' z hz, by rw [← hzp], by rw [← hzp]⟩

theorem startTracingFake_ok (env : TelemetryEnv FakeTx) (tc : TransactionContainer FakeTx)
    (htd : env.traceDriver ∈ mapKeys tc.transactions)
    (hok : ∀ p ∈ tc.transactions, p.2.failSetTrace = false) :
    TransactionContainer.StartTracing fakeImpl env tc =
      (⟨tc.transactions.map (fun p => (p.1, { p.2 with heldTrace := some "t-1" }))⟩,
       "t-1", none) := by
  obtain ⟨t0, ht0⟩ := mem_mapKeys_lookup htd
  have hst : TransactionContainer.SetTrace fakeImpl ⟨tc.transactions⟩ "t-1" =
      (⟨tc.transactions.map (fun p => (p.1, { p.2 with heldTrace := some "t-1" }))⟩, none) := by
    have h1 : tc.transactions.map (fun p => (p.1, (fakeImpl.setTrace p.2 "t-1").1)) =
        tc.transactions.map (fun p => (p.1, { p.2 with heldTrace := some "t-1" })) :=
      List.map_congr_left (fun p hp => by
        simp only [fakeImpl_setTrace, hok p hp]
        simp)
    have h2 : tc.transactions.filterMap (fun p =>
        ((fakeImpl.setTrace p.2 "t-1").2).map
          (fun e => GoErr.driverOp p.1 "SetTrace" e)) = [] :=
      List.filterMap_eq_nil_iff.mpr (fun p hp => by
        simp only [fakeImpl_setTrace, hok p hp]
        simp)
    simp only [TransactionContainer.SetTrace, setTraceLoop_eq, h1, h2,
      errorWrapper_error_nil]
  simp only [TransactionContainer.StartTracing, ht0, fakeImpl_createTrace,
    mapInsert_self ht0, hst]

theorem filterMap_ite {α β : Type} (c : α → Bool) (g : α → β) (l : List α) :
    l.filterMap (fun a => if c a then some (g a) else none) = (l.filter c).map g := by
  induction l with
  | nil => rfl
  | cons a rest ih =>
    simp only [List.filterMap_cons, List.filter_cons]
    cases h : c a <;> simp [h, ih]

/-- Claim C1, counterexample: with the trace authority "local" as only
active driver, `Start("checkout")` succeeds and mints/broadcasts the
ProcessID "p-1", yet the backend's held TraceID is still `none` — `Start`
never mints or broadcasts a TraceID (that is `StartTracing`'s job, which
`Start` does not call). -/
theorem claim1_counterexample :
    Start fakeImpl (envOf [("local", {})] "local") "checkout" =
      .ok ⟨[("local",
        { startedName := some "checkout", heldProcessID := some "p-1",
          heldTrace := none })]⟩ none := rfl

/-- Claim C1, amended: `Start` mints the ProcessID via the trace authority
and broadcasts it to every backend; the TraceID is minted and broadcast by
the separate `StartTracing` method, which the caller must invoke after
`Start` — after which every backend holds the same ProcessID and the same
TraceID. -/
theorem claim1_amended (specs : List (String × FakeTx)) (td nm : String)
    (htd : td ∈ mapKeys specs)
    (hfl : ∀ p ∈ specs, p.2.failSetProcessID = false ∧ p.2.failSetTrace = false) :
    ∃ tc : TransactionContainer FakeTx, ∃ m' : List (String × FakeTx),
      Start fakeImpl (envOf specs td) nm = .ok tc none
      ∧ (∀ p ∈ tc.transactions, p.2.heldProcessID = some "p-1")
      ∧ TransactionContainer.StartTracing fakeImpl (envOf specs td) tc = (⟨m'⟩, "t-1", none)
      ∧ (∀ p ∈ m', p.2.heldProcessID = some "p-1" ∧ p.2.heldTrace = some "t-1") := by
  obtain ⟨m, hstart, hkeys, hnd, horig⟩ :=
    startFake_ok specs td nm htd (fun p hp => (hfl p hp).1)
  have hptc : ∀ p ∈ m, p.2.heldProcessID = some "p-1" := by
    intro p hp
    obtain ⟨q, hq, h1, h2⟩ := horig p hp
    rw [h2]
  have htd' : (envOf specs td).traceDriver ∈
      mapKeys (⟨m⟩ : TransactionContainer FakeTx).transactions :=
    (hkeys td).mpr htd
  have hfl' : ∀ p ∈ (⟨m⟩ : TransactionContainer FakeTx).transactions,
      p.2.failSetTrace = false := by
    intro p hp
    obtain ⟨q, hq, h1, h2⟩ := horig p hp
    rw [h2]
    exact (hfl q hq).2
  have htr := startTracingFake_ok (envOf specs td) ⟨m⟩ htd' hfl'
  refine ⟨⟨m⟩, m.map (fun p => (p.1, { p.2 with heldTrace := some "t-1" })),
    hstart, hptc, htr, ?_⟩
  intro p hp
  obtain ⟨z, hz, hzp⟩ := List.mem_map.mp hp
  constructor
  · rw [← hzp]
    exact hptc z hz
  · rw [← hzp]

/-- Claim C2, counterexample: with driver "a" started and driver "b"
failing to initialize, `Start` returns the error wrapping "b" together
with the partial container still holding "a"'s transaction, whose
`eraseCount` is 0 — `Erase` was never called on the already-started
backend before propagating the error. -/
theorem claim2_counterexample :
    Start fakeImpl
      { registeredDriver := [("a", fakeDriver {}), ("b", failingDriver (.base "boom"))]
      , loadedDriver := ["a", "b"], traceDriver := "a" } "checkout" =
        .ok ⟨[("a", {})]⟩ (some (.driverInit "b" (.base "boom")))
    ∧ ({} : FakeTx).eraseCount = 0 := ⟨rfl, rfl⟩

/-- Claim C2, amended: when a driver's `InitializeTransaction` fails
during `Start`, `Start` aborts with an error wrapping that driver's name,
but it does NOT release the backend transactions already started earlier
in the loop: they are returned, un-erased and in their driver-provided
state, inside the partial container. -/
theorem claim2_amended (goods : List (String × FakeTx)) (bad : String) (e : GoErr)
    (td nm : String) (hnd : (mapKeys goods).Nodup) (hbad : bad ∉ mapKeys goods) :
    Start fakeImpl
      { registeredDriver := goods.map (fun p => (p.1, fakeDriver p.2)) ++
          [(bad, failingDriver e)]
      , loadedDriver := mapKeys goods ++ [bad]
      , traceDriver := td } nm =
      .ok ⟨goods⟩ (some (.driverInit bad e)) := by
  have hkm : mapKeys (goods.map (fun q => (q.1, fakeDriver q.2))) = mapKeys goods :=
    mapKeys_mapEntries (fun q => fakeDriver q.2) goods
  have hreg : ∀ p ∈ goods, ∃ d : Driver FakeTx,
      mapLookup (goods.map (fun q => (q.1, fakeDriver q.2)) ++ [(bad, failingDriver e)]) p.1 =
        some d ∧ d.initializeTransaction nm = .ok p.2 := by
    intro p hp
    refine ⟨fakeDriver p.2, ?_, rfl⟩
    apply mapLookup_append_left
    rw [mapLookup_map_snd, mapLookup_of_mem_nodup hnd hp]
    rfl
  have hinit1 : initTransactions
      { registeredDriver := goods.map (fun q => (q.1, fakeDriver q.2)) ++
          [(bad, failingDriver e)]
      , loadedDriver := mapKeys goods ++ [bad]
      , traceDriver := td } nm (mapKeys goods) [] = .ok ⟨goods⟩ none := by
    have := initTransactions_exact
      { registeredDriver := goods.map (fun q => (q.1, fakeDriver q.2)) ++
          [(bad, failingDriver e)]
      , loadedDriver := mapKeys goods ++ [bad]
      , traceDriver := td } nm goods [] hreg hnd (by simp [mapKeys])
    simpa using this
  have hbadlook : mapLookup
      (goods.map (fun q => (q.1, fakeDriver q.2)) ++ [(bad, failingDriver e)]) bad =
      some (failingDriver e) := by
    rw [mapLookup_append_right _ (hkm ▸ hbad)]
    simp [mapLookup]
  have happ := initTransactions_append
    { registeredDriver := goods.map (fun q => (q.1, fakeDriver q.2)) ++
        [(bad, failingDriver e)]
    , loadedDriver := mapKeys goods ++ [bad]
    , traceDriver := td } nm (mapKeys goods) [bad] [] goods hinit1
  have hinit2 : initTransactions
      { registeredDriver := goods.map (fun q => (q.1, fakeDriver q.2)) ++
          [(bad, failingDriver e)]
      , loadedDriver := mapKeys goods ++ [bad]
      , traceDriver := td } nm [bad] goods =
      .ok ⟨goods⟩ (some (.driverInit bad e)) := by
    simp only [initTransactions, hbadlook]
    simp [failingDriver]
  simp only [Start, happ, hinit2]

/-- Claim C2, witness: the amended theorem applied at one good driver "a"
and one failing driver "b". -/
theorem claim2_witness :
    Start fakeImpl
      { registeredDriver := [("a", ({} : FakeTx))].map (fun p => (p.1, fakeDriver p.2)) ++
          [("b", failingDriver (.base "boom"))]
      , loadedDriver := mapKeys [("a", ({} : FakeTx))] ++ ["b"]
      , traceDriver := "a" } "checkout" =
      .ok ⟨[("a", {})]⟩ (some (.driverInit "b" (.base "boom"))) :=
  claim2_amended [("a", {})] "b" (.base "boom") "a" "checkout" (by decide) (by decide)

/-- Claim C1, witness: the amended theorem applied to the two-driver set
{"local", "apm"} with trace authority "local". -/
theorem claim1_witness :
    ∃ tc : TransactionContainer FakeTx, ∃ m' : List (String × FakeTx),
      Start fakeImpl (envOf [("local", {}), ("apm", {})] "local") "checkout" = .ok tc none
      ∧ (∀ p ∈ tc.transactions, p.2.heldProcessID = some "p-1")
      ∧ TransactionContainer.StartTracing fakeImpl (envOf [("local", {}), ("apm", {})] "local")
          tc = (⟨m'⟩, "t-1", none)
      ∧ (∀ p ∈ m', p.2.heldProcessID = some "p-1" ∧ p.2.heldTrace = some "t-1") :=
  claim1_amended [("local", {}), ("apm", {})] "local" "checkout" (by decide) (by decide)

/-- Claim C3: when every active driver initializes (the drivers of `envOf`)
but the backends whose `failSetProcessID` flag is set reject the broadcast,
`Start` still returns the container holding every backend transaction
(same key set as the active driver set), and the returned error is
`ErrorProcessID` of the join of exactly one `driverOp _ "SetProcessID"`
wrapper per failing backend, in container order — none lost, none
duplicated. -/
theorem claim3_setProcessID_partial_failures (specs : List (String × FakeTx))
    (td nm : String) (hnd : (mapKeys specs).Nodup) (htd : td ∈ mapKeys specs)
    (hsome : specs.filter (fun p => p.2.failSetProcessID) ≠ []) :
    Start fakeImpl (envOf specs td) nm =
      .ok ⟨specs.map (fun p => (p.1, (fakeImpl.setProcessID p.2 "p-1").1))⟩
        (some (.processID (.joined
          ((specs.filter (fun p => p.2.failSetProcessID)).map
            (fun p => .driverOp p.1 "SetProcessID" (.base "set process id failed"))))))
    ∧ mapKeys (specs.map (fun p => (p.1, (fakeImpl.setProcessID p.2 "p-1").1))) =
        mapKeys specs := by
  have hreg : ∀ p ∈ specs, ∃ d : Driver FakeTx,
      mapLookup (envOf specs td).registeredDriver p.1 = some d ∧
        d.initializeTransaction nm = .ok p.2 := by
    intro p hp
    refine ⟨fakeDriver p.2, ?_, rfl⟩
    show mapLookup (specs.map (fun q => (q.1, fakeDriver q.2))) p.1 = _
    rw [mapLookup_map_snd, mapLookup_of_mem_nodup hnd hp]
    rfl
  have hinit : initTransactions (envOf specs td) nm (mapKeys specs) [] =
      .ok ⟨specs⟩ none := by
    have := initTransactions_exact (envOf specs td) nm specs [] hreg hnd (by simp [mapKeys])
    simpa using this
  obtain ⟨t0, ht0⟩ := mem_mapKeys_lookup htd
  have hcp : TransactionContainer.CreateProcessID fakeImpl (envOf specs td) ⟨specs⟩ =
      (⟨specs⟩, "p-1", none) := by
    simp only [TransactionContainer.CreateProcessID, envOf_traceDriver, ht0,
      fakeImpl_createProcessID, mapInsert_self ht0]
  have hfm : ∀ p : String × FakeTx,
      ((fakeImpl.setProcessID p.2 "p-1").2).map (fun e => GoErr.driverOp p.1 "SetProcessID" e) =
        if p.2.failSetProcessID then
          some (.driverOp p.1 "SetProcessID" (.base "set process id failed"))
        else none := by
    intro p
    simp only [fakeImpl_setProcessID]
    cases h : p.2.failSetProcessID <;> simp [h]
  have herrs : specs.filterMap (fun p =>
      ((fakeImpl.setProcessID p.2 "p-1").2).map (fun e => GoErr.driverOp p.1 "SetProcessID" e)) =
      (specs.filter (fun p => p.2.failSetProcessID)).map
        (fun p => .driverOp p.1 "SetProcessID" (.base "set process id failed")) := by
    simp only [hfm]
    exact filterMap_ite (fun p => p.2.failSetProcessID)
      (fun p => GoErr.driverOp p.1 "SetProcessID" (GoErr.base "set process id failed")) specs
  have hne : (specs.filter (fun p => p.2.failSetProcessID)).map
      (fun p => GoErr.driverOp p.1 "SetProcessID" (.base "set process id failed")) ≠ [] := by
    intro hc
    exact hsome (List.map_eq_nil_iff.mp hc)
  have hsp : TransactionContainer.SetProcessID fakeImpl ⟨specs⟩ "p-1" =
      (⟨specs.map (fun p => (p.1, (fakeImpl.setProcessID p.2 "p-1").1))⟩,
       some (.joined ((specs.filter (fun p => p.2.failSetProcessID)).map
         (fun p => .driverOp p.1 "SetProcessID" (.base "set process id failed"))))) := by
    simp only [TransactionContainer.SetProcessID, setProcessIDLoop_eq, herrs,
      errorWrapper_error_ne_nil hne]
  refine ⟨?_, mapKeys_mapEntries (fun p => (fakeImpl.setProcessID p.2 "p-1").1) specs⟩
  simp only [Start, envOf_loadedDriver, hinit, hcp, hsp]

/-- Driver set used by the C3 witness: the authority "local" is clean and
backend "apm" rejects `SetProcessID`. -/
def specsC3 : List (String × FakeTx) :=
  [("local", {}), ("apm", { failSetProcessID := true })]

/-- Claim C3, witness: the theorem applied to authority "local" (clean) and
backend "apm" whose `SetProcessID` fails. -/
theorem claim3_witness :
    Start fakeImpl (envOf specsC3 "local") "checkout" =
      .ok ⟨specsC3.map (fun p => (p.1, (fakeImpl.setProcessID p.2 "p-1").1))⟩
        (some (.processID (.joined
          ((specsC3.filter (fun p => p.2.failSetProcessID)).map
            (fun p => .driverOp p.1 "SetProcessID" (.base "set process id failed"))))))
    ∧ mapKeys (specsC3.map (fun p => (p.1, (fakeImpl.setProcessID p.2 "p-1").1))) =
        mapKeys specsC3 :=
  claim3_setProcessID_partial_failures specsC3 "local" "checkout"
    (by decide) (by decide) (by decide)

/-- Claim C4: when the trace authority is not among the active drivers (all
of which initialize), `Start` returns the distinguished
trace-driver-not-registered condition wrapped in `ErrorProcessID` — the
caller gets an error and must not use the returned container. -/
theorem claim4_trace_authority_absent (specs : List (String × FakeTx))
    (td nm : String) (htd : td ∉ mapKeys specs) :
    ∃ tc : TransactionContainer FakeTx,
      Start fakeImpl (envOf specs td) nm =
        .ok tc (some (.processID (.traceDriverNotRegistered td))) := by
  obtain ⟨m₀, hinit, hkeys, _, _⟩ :=
    initTransactions_envOf_ok specs td nm (mapKeys specs) [] (fun n hn => hn)
  have hnotin : td ∉ mapKeys m₀ := by
    intro hc
    rcases (hkeys td).mp hc with h | h
    · simp [mapKeys] at h
    · exact htd h
  have hlook : mapLookup m₀ td = none := (mapLookup_eq_none_iff m₀ td).mpr hnotin
  have hcp : TransactionContainer.CreateProcessID fakeImpl (envOf specs td) ⟨m₀⟩ =
      (⟨m₀⟩, "", some (.traceDriverNotRegistered td)) := by
    simp only [TransactionContainer.CreateProcessID, envOf_traceDriver, hlook]
  exact ⟨⟨m₀⟩, by simp only [Start, envOf_loadedDriver, hinit, hcp]⟩

/-- Claim C4, witness: the theorem applied to the driver set {"apm"} with
trace authority "local" absent from it. -/
theorem claim4_witness :
    ∃ tc : TransactionContainer FakeTx,
      Start fakeImpl (envOf [("apm", {})] "local") "checkout" =
        .ok tc (some (.processID (.traceDriverNotRegistered "local"))) :=
  claim4_trace_authority_absent [("apm", {})] "local" "checkout" (by decide)

/-- Claim C5: for a non-empty active driver set containing the trace
authority, with every driver registered (the drivers of `envOf`) and every
backend call succeeding, `Start` returns a container whose backend key set
contains exactly one entry per active driver name and no others. -/
theorem claim5_backend_set_matches_active (specs : List (String × FakeTx))
    (td nm : String) (hne : specs ≠ []) (htd : td ∈ mapKeys specs)
    (hok : ∀ p ∈ specs, p.2.failSetProcessID = false) :
    ∃ tc : TransactionContainer FakeTx,
      Start fakeImpl (envOf specs td) nm = .ok tc none
      ∧ (mapKeys tc.transactions).Nodup
      ∧ (∀ k, k ∈ mapKeys tc.transactions ↔ k ∈ (envOf specs td).loadedDriver) := by
  obtain ⟨m, hstart, hkeys, hnd, _⟩ := startFake_ok specs td nm htd hok
  exact ⟨⟨m⟩, hstart, hnd, fun k => hkeys k⟩

/-- Claim C5, witness: the theorem applied to the driver set
{"local", "apm"} with trace authority "local", including a duplicate
active entry to exercise once-each semantics. -/
theorem claim5_witness :
    ∃ tc : TransactionContainer FakeTx,
      Start fakeImpl (envOf [("local", {}), ("apm", {}), ("local", {})] "local")
          "checkout" = .ok tc none
      ∧ (mapKeys tc.transactions).Nodup
      ∧ (∀ k, k ∈ mapKeys tc.transactions ↔
          k ∈ (envOf [("local", {}), ("apm", {}), ("local", {})] "local").loadedDriver) :=
  claim5_backend_set_matches_active [("local", {}), ("apm", {}), ("local", {})]
    "local" "checkout" (by decide) (by decide) (by decide)

/-- Claim C6: `SegmentStart` returns no error to the caller (its result is
a plain SegmentID string), the returned SegmentID is the fresh
`uuidString gen` of the threaded counter — independent of the backend
implementation, so per-backend failures cannot change it — the call
broadcasts `SegmentStart(segmentID, name)` to every backend, and the
SegmentIDs of any sequence of `SegmentStart` calls over the multiplexer's
lifetime are pairwise distinct (so two calls with the same name still
yield distinct IDs). -/
theorem claim6_segmentStart_fresh_broadcast {A τ : Type} (impl : TransactionImpl A τ)
    (tc : TransactionContainer τ) (gen : Nat) (name : String) (names : List String) :
    (TransactionContainer.SegmentStart impl tc gen name).1 = uuidString gen
    ∧ (TransactionContainer.SegmentStart impl tc gen name).2.1.transactions =
        tc.transactions.map (fun p => (p.1, (impl.segmentStart p.2 (uuidString gen) name).1))
    ∧ ((runSegmentStarts impl tc gen names).1).Nodup := by
  refine ⟨rfl, rfl, ?_⟩
  rw [runSegmentStarts_ids]
  exact List.Nodup.map
    (fun a b h => Nat.add_left_cancel (uuidString_injective h))
    (List.nodup_range _)

/-- Claim C7: `Done` calls the completion operation and then `Erase` on
every backend exactly once — each backend's `doneCount` and `eraseCount`
grow by exactly one, including backends whose completion call fails (the
`failDone` flag of an entry is arbitrary), and no completion error is
surfaced (the operation returns only the container). -/
theorem claim7_done_erases_once (tc : TransactionContainer FakeTx) :
    (TransactionContainer.Done fakeImpl tc).transactions =
      tc.transactions.map (fun p =>
        (p.1, { p.2 with doneCount := p.2.doneCount + 1,
                         eraseCount := p.2.eraseCount + 1 })) := rfl

/-- Claim C8: accumulating any list of errors into an `ErrorWrapper` by
repeated `Add` calls, `Error()` is `none` exactly when nothing was
accumulated, and otherwise it is the single join of all accumulated errors
in the order they were added (join semantics, not first-error-wins). -/
theorem claim8_errorWrapper_join (es : List GoErr) :
    ((addAll es).Error = none ↔ es = [])
    ∧ (es ≠ [] → (addAll es).Error = some (.joined es)) := by
  have hw : addAll es = ⟨es⟩ := by
    show es.foldl ErrorWrapper.Add ⟨[]⟩ = ⟨es⟩
    rw [foldl_add_eq es []]
    simp
  rw [hw]
  refine ⟨⟨?_, ?_⟩, ?_⟩
  · intro h
    cases es with
    | nil => rfl
    | cons e rest =>
      rw [errorWrapper_error_ne_nil (List.cons_ne_nil e rest)] at h
      exact Option.noConfusion h
  · intro h
    subst h
    rfl
  · intro h
    exact errorWrapper_error_ne_nil h

/-- Claim C8, witness: the theorem applied to a two-error accumulation. -/
theorem claim8_witness :
    (addAll [GoErr.base "x", GoErr.base "y"]).Error =
      some (.joined [GoErr.base "x", GoErr.base "y"]) :=
  (claim8_errorWrapper_join [GoErr.base "x", GoErr.base "y"]).2 (by simp)

/-- Claim C9, counterexample: with an empty active driver set, `Start` does
NOT succeed — the trace-driver lookup finds no backend transaction, so
`Start` returns the empty container together with the
`ErrorProcessID`-wrapped trace-driver-not-registered error. -/
theorem claim9_counterexample :
    Start fakeImpl
      ({ registeredDriver := [], loadedDriver := [], traceDriver := "local" } :
        TelemetryEnv FakeTx) "checkout" =
      .ok ⟨[]⟩ (some (.processID (.traceDriverNotRegistered "local"))) := rfl

/-- Claim C9, amended: with an empty active driver set, `Start` returns an
empty container together with the `ErrorProcessID`-wrapped
trace-driver-not-registered error (so it does not succeed); the empty
container is a no-op multiplexer — every subsequent operation leaves it
empty and reports no failure to the caller. -/
theorem claim9_amended {A τ : Type} (impl : TransactionImpl A τ) (env : TelemetryEnv τ)
    (nm sid k msg em tr pid : String) (v : A) (gen : Nat)
    (h : env.loadedDriver = []) :
    Start impl env nm = .ok ⟨[]⟩ (some (.processID (.traceDriverNotRegistered env.traceDriver)))
    ∧ TransactionContainer.AddTransactionAttribute impl ⟨[]⟩ k v =
        (⟨[]⟩ : TransactionContainer τ)
    ∧ (TransactionContainer.SegmentStart impl ⟨[]⟩ gen nm).2.1 =
        (⟨[]⟩ : TransactionContainer τ)
    ∧ TransactionContainer.AddSegmentAttribute impl ⟨[]⟩ sid k v =
        (⟨[]⟩ : TransactionContainer τ)
    ∧ TransactionContainer.SegmentEnd impl ⟨[]⟩ sid = (⟨[]⟩ : TransactionContainer τ)
    ∧ TransactionContainer.SetProcessID impl (⟨[]⟩ : TransactionContainer τ) pid = (⟨[]⟩, none)
    ∧ TransactionContainer.SetTrace impl (⟨[]⟩ : TransactionContainer τ) tr = (⟨[]⟩, none)
    ∧ TransactionContainer.Info impl ⟨[]⟩ sid msg = (⟨[]⟩ : TransactionContainer τ)
    ∧ TransactionContainer.Error impl ⟨[]⟩ sid em = (⟨[]⟩ : TransactionContainer τ)
    ∧ TransactionContainer.Done impl ⟨[]⟩ = (⟨[]⟩ : TransactionContainer τ) := by
  refine ⟨?_, rfl, rfl, rfl, rfl, rfl, rfl, rfl, rfl, rfl⟩
  simp only [Start, h, initTransactions, TransactionContainer.CreateProcessID, mapLookup]

/-- Claim C9, witness: the amended theorem applied to an environment with
no loaded drivers. -/
theorem claim9_witness :
    Start fakeImpl
      ({ registeredDriver := [], loadedDriver := [], traceDriver := "local" } :
        TelemetryEnv FakeTx) "checkout" =
      .ok ⟨[]⟩ (some (.processID (.traceDriverNotRegistered "local"))) :=
  (claim9_amended fakeImpl
    { registeredDriver := [], loadedDriver := [], traceDriver := "local" }
    "checkout" "s" "k" "m" "e" "t" "p" "v" 0 rfl).1

/-- Claim C10: every post-start broadcast operation — AddTransactionAttribute,
SegmentStart, AddSegmentAttribute, SegmentEnd, SetProcessID, SetTrace,
Info, Error — leaves the container's backend key set unchanged, for any
backend implementation and hence regardless of which backend calls fail
(each name stays bound to its own threaded transaction state; no entry is
added, dropped or rebound). -/
theorem claim10_broadcast_frame {A τ : Type} (impl : TransactionImpl A τ)
    (tc : TransactionContainer τ) (k sid nm msg em tr pid : String) (v : A) (gen : Nat) :
    mapKeys (TransactionContainer.AddTransactionAttribute impl tc k v).transactions =
      mapKeys tc.transactions
    ∧ mapKeys ((TransactionContainer.SegmentStart impl tc gen nm).2.1).transactions =
        mapKeys tc.transactions
    ∧ mapKeys (TransactionContainer.AddSegmentAttribute impl tc sid k v).transactions =
        mapKeys tc.transactions
    ∧ mapKeys (TransactionContainer.SegmentEnd impl tc sid).transactions =
        mapKeys tc.transactions
    ∧ mapKeys ((TransactionContainer.SetProcessID impl tc pid).1).transactions =
        mapKeys tc.transactions
    ∧ mapKeys ((TransactionContainer.SetTrace impl tc tr).1).transactions =
        mapKeys tc.transactions
    ∧ mapKeys (TransactionContainer.Info impl tc sid msg).transactions =
        mapKeys tc.transactions
    ∧ mapKeys (TransactionContainer.Error impl tc sid em).transactions =
        mapKeys tc.transactions := by
  have h5 : (TransactionContainer.SetProcessID impl tc pid).1.transactions =
      tc.transactions.map (fun p => (p.1, (impl.setProcessID p.2 pid).1)) := by
    simp only [TransactionContainer.SetProcessID, setProcessIDLoop_eq]
  have h6 : (TransactionContainer.SetTrace impl tc tr).1.transactions =
      tc.transactions.map (fun p => (p.1, (impl.setTrace p.2 tr).1)) := by
    simp only [TransactionContainer.SetTrace, setTraceLoop_eq]
  refine ⟨mapKeys_mapEntries (fun p => (impl.addTransactionAttribute p.2 k v).1) _,
    mapKeys_mapEntries (fun p => (impl.segmentStart p.2 (uuidString gen) nm).1) _,
    mapKeys_mapEntries (fun p => (impl.addSegmentAttribute p.2 sid k v).1) _,
    mapKeys_mapEntries (fun p => (impl.segmentEnd p.2 sid).1) _, ?_, ?_,
    mapKeys_mapEntries (fun p => (impl.info p.2 sid msg).1) _,
    mapKeys_mapEntries (fun p => (impl.error p.2 sid em).1) _⟩
  · rw [h5]
    exact mapKeys_mapEntries (fun p => (impl.setProcessID p.2 pid).1) _
  · rw [h6]
    exact mapKeys_mapEntries (fun p => (impl.setTrace p.2 tr).1) _

end Telemetry
